import Mathlib

/-!
Verification of the factory-di dependency-resolution engine.

Shallow embedding of the JavaScript sources:
  * `src/injector.js`   - dependency-declaration parsing,
  * `src/resolver.js`   - recursive graph resolution,
  * `src/runner.js`     - invocation with placeholder arguments,
  * `src/helpers/historyHelper.js` - resolution history records,
  * the registration module and the public container entry points.

Modelling conventions:
  * JavaScript runtime values are the inductive `Value`; factory function
    bodies are defunctionalized as `Body` terms evaluated by `applyBody`
    (lodash `partial` currying is the `Body.curried` form).
  * JavaScript objects used as maps are `String → Option α`; a present key
    bound to `undefined` is `some Value.undef`, an absent key is `none`.
  * JavaScript truthiness is `jsTruthy` / `optTruthy`.
  * Thrown errors are structured `DiError` values carrying exactly the data
    interpolated into the corresponding message template in the source.
  * The recursive resolver takes an explicit fuel argument (`Nat`) so that
    the definitions are total; `DiError.fuelOut` marks fuel exhaustion and
    is never produced by runs with sufficient fuel.
-/

namespace FactoryDI

/-- One parsed injection request, `injector.js` `InjectionRequest`:
`{name, isOptional, asFactory, isPlaceholder}` with absent flags read as
falsy. -/
structure InjectionRequest where
  name : String
  isOptional : Bool := false
  asFactory : Bool := false
  isPlaceholder : Bool := false
deriving DecidableEq, Repr

mutual

/-- Defunctionalized factory function body.  `Body.ret v` is a function
returning the constant `v`; `Body.arg i` returns the i-th call argument
(`undefined` when out of range, as in JavaScript); `Body.curried inner ps`
is the function produced by `lodashPartial(inner, ...ps)` where a `none`
entry is the lodash placeholder token (`resolver.js` line 146). -/
inductive Body where
  | ret (v : Value)
  | arg (i : Nat)
  | curried (inner : Body) (partialArgs : List (Option Value))

/-- A JavaScript runtime value: `undefined`, `null`, booleans, numbers
(integers suffice for this code base), strings, plain objects, and
function values (decorated factories). -/
inductive Value where
  | undef
  | vnull
  | vbool (b : Bool)
  | vnum (n : Int)
  | vstr (s : String)
  | vobj (fields : List (String × Value))
  | vfn (f : DFactory)

/-- A decorated factory (`resolver.js` `DecoratedFactory`): the callable
plus the metadata fields the engine attaches.  Field order:
`body`, `$inject` (parsed), `$$placeholderArgs`, `$singleton`,
`$filename`, `$$registerSourceFile`, `$$isUndefined`, `$$isSingleton`. -/
inductive DFactory where
  | mk (body : Body)
       (inject : List InjectionRequest)
       (placeholderArgs : Option (List InjectionRequest))
       (singleton : Bool)
       (filename : Option Value)
       (registerSourceFile : Option Value)
       (isUndefined : Bool)
       (isSingleton : Bool)

end

/-- The callable part of a decorated factory. -/
def DFactory.body : DFactory → Body
  | .mk b _ _ _ _ _ _ _ => b

/-- The parsed `$inject` list of a decorated factory. -/
def DFactory.inject : DFactory → List InjectionRequest
  | .mk _ i _ _ _ _ _ _ => i

/-- The `$$placeholderArgs` decoration (`none` when the property is not
set on the function object). -/
def DFactory.placeholderArgs : DFactory → Option (List InjectionRequest)
  | .mk _ _ p _ _ _ _ _ => p

/-- The `$singleton` decoration. -/
def DFactory.singleton : DFactory → Bool
  | .mk _ _ _ s _ _ _ _ => s

/-- The `$filename` decoration. -/
def DFactory.filename : DFactory → Option Value
  | .mk _ _ _ _ f _ _ _ => f

/-- The `$$registerSourceFile` decoration. -/
def DFactory.registerSourceFile : DFactory → Option Value
  | .mk _ _ _ _ _ r _ _ => r

/-- The `$$isUndefined` system flag. -/
def DFactory.isUndefined : DFactory → Bool
  | .mk _ _ _ _ _ _ u _ => u

/-- The `$$isSingleton` system flag. -/
def DFactory.isSingleton : DFactory → Bool
  | .mk _ _ _ _ _ _ _ s => s

/-- JavaScript truthiness of a `Value`. -/
def jsTruthy : Value → Bool
  | .undef => false
  | .vnull => false
  | .vbool b => b
  | .vnum n => n != 0
  | .vstr s => s != ""
  | .vobj _ => true
  | .vfn _ => true

/-- Truthiness of a possibly-absent value (an absent property reads as
`undefined`, which is falsy). -/
def optTruthy : Option Value → Bool
  | none => false
  | some v => jsTruthy v

/-- The JavaScript expression `x || null`: keep `x` if truthy, else `null`
(modelled as `none`). -/
def truthyOrNone (o : Option Value) : Option Value :=
  if optTruthy o then o else none

/-- Whether a value is literally `undefined`. -/
def isUndef : Value → Bool
  | .undef => true
  | _ => false

/-- One record of the resolution history
(`helpers/historyHelper.js`): `{name, filepath, registerSource, notFound?}`.
`filepath`/`registerSource` are `none` for the `null` written by
`$filename || null` / `$$registerSourceFile || null`; `notFound` models the
optional `notFound: true` flag. -/
structure HistoryRecord where
  name : String
  filepath : Option Value := none
  registerSource : Option Value := none
  notFound : Bool := false

/-- Append a history record built from the given property values
(`addToHistory` applied to an object exposing these three properties;
the error paths pass a fresh `{}`, i.e. all-absent). -/
def addToHistoryRaw (history : List HistoryRecord) (itemName : String)
    (filepath registerSource : Option Value) (notFound : Bool) :
    List HistoryRecord :=
  history ++ [{ name := itemName, filepath := filepath,
                registerSource := registerSource, notFound := notFound }]

/-- `addToHistory(history, itemName, resolvedFactory)` for a decorated
factory: `filepath` is `$filename || null`, `registerSource` is
`$$registerSourceFile || null`, and `notFound` is set when the factory is
the synthetic undefined factory. -/
def addToHistory (history : List HistoryRecord) (itemName : String)
    (f : DFactory) : List HistoryRecord :=
  addToHistoryRaw history itemName (truthyOrNone f.filename)
    (truthyOrNone f.registerSourceFile) f.isUndefined

/-- The injector metadata (`index.js` `InjectorState.meta`). -/
structure MetaState where
  registerSourceFile : Option Value := none
  skipTraceErrors : Bool := false

/-- The injector state (`index.js` `InjectorState`): the registry map, the
singleton cache, and the metadata. -/
structure InjectorState where
  registered : String → Option DFactory
  singletons : String → Option Value
  meta : MetaState

/-- Functional update of a string-keyed map, modelling
`{...map, [key]: value}`. -/
def setMap {α : Type} (m : String → Option α) (k : String) (v : α) :
    String → Option α :=
  fun q => if q = k then some v else m q

/-- The structured content of every error the engine throws.  Each
constructor carries exactly the data interpolated into the corresponding
message template of the source (item names, indexes, counts) together with
the history attached by `buildErrorWithStack` where one is attached.
`fuelOut` is the model-only fuel-exhaustion marker. -/
inductive DiError where
  | notRegistered (itemName : String) (history : List HistoryRecord)
  | cyclicDependency (depName : String) (history : List HistoryRecord)
  | missingPlaceholder (itemName : String) (argName : String)
      (history : List HistoryRecord)
  | nonArrayInject (itemName : String) (history : List HistoryRecord)
  | invalidInject (itemName : String) (indexes : List Nat)
      (history : List HistoryRecord)
  | countMismatch (itemName : String) (injectedCount expectedCount : Nat)
      (history : List HistoryRecord)
  | nonArrayPlaceholders (itemName : String) (history : List HistoryRecord)
  | invalidPlaceholders (itemName : String) (indexes : List Nat)
      (history : List HistoryRecord)
  | missingRegisterSource (itemName : String) (history : List HistoryRecord)
  | noItemName
  | fuelOut

/-- The non-fatal diagnostics the registration path logs
(`console.log` in `validateFactory`). -/
inductive RegisterWarning where
  | missingFilename (itemName : String)
deriving DecidableEq, Repr

/-- A per-item placeholder argument bag: a JavaScript object mapping
placeholder names to values. -/
def ArgsMap : Type := String → Option Value

/-- An empty argument bag (`{}`). -/
def emptyArgsMap : ArgsMap := fun _ => none

/-- The `resolveArgs` object: item name (or `common`) to argument bag. -/
def ResolveArgs : Type := String → Option ArgsMap

/-- An empty `resolveArgs` object. -/
def emptyResolveArgs : ResolveArgs := fun _ => none

/-- JavaScript property read on an object-as-map: an absent key reads as
`undefined`. -/
def getJs (m : ArgsMap) (k : String) : Value :=
  (m k).getD Value.undef

/-- `composeArgs` of lodash `partial`: the stored partial list with `none`
placeholder slots filled from the call arguments in order, surplus call
arguments appended, and a missing argument for a placeholder slot read as
`undefined`. -/
def fillArgs : List (Option Value) → List Value → List Value
  | [], extras => extras
  | some v :: ps, extras => v :: fillArgs ps extras
  | none :: ps, e :: extras => e :: fillArgs ps extras
  | none :: ps, [] => Value.undef :: fillArgs ps []

/-- Evaluate a factory body on a list of call arguments. -/
def applyBody : Body → List Value → Value
  | .ret v, _ => v
  | .arg i, args => args.getD i Value.undef
  | .curried inner ps, args => applyBody inner (fillArgs ps args)

/-- The merged per-call argument bag of `runner.js` lines 19-26:
`{...resolveArgs.common, ...resolveArgs[itemName]}` with the absent or
falsy bags replaced by `{}`.  A key present in the per-item bag shadows
the common bag even when bound to `undefined` (object spread copies
present keys regardless of their value). -/
def usableArgs (resolveArgs : Option ResolveArgs) (itemName : String) :
    ArgsMap :=
  let safeResolveArgs := resolveArgs.getD emptyResolveArgs
  let argsForThisFactory := (safeResolveArgs itemName).getD emptyArgsMap
  let argsForAllFactories := (safeResolveArgs "common").getD emptyArgsMap
  fun k =>
    match argsForThisFactory k with
    | some v => some v
    | none => argsForAllFactories k

/-- Bind one declared placeholder argument (`runner.js` lines 28-42):
use the bag value when it is not `undefined`; else pass `undefined` when
optional; else throw the missing-placeholder run error. -/
def bindPlaceholderArg (usable : ArgsMap) (itemName : String)
    (resolveHistory : List HistoryRecord) (pa : InjectionRequest) :
    Except DiError Value :=
  if isUndef (getJs usable pa.name) = false then
    .ok (getJs usable pa.name)
  else if pa.isOptional then
    .ok Value.undef
  else
    .error (.missingPlaceholder itemName pa.name resolveHistory)

/-- `runFactory` (`runner.js`): invoke a resolved factory.  Without a
`$$placeholderArgs` decoration the factory is applied to no extra
arguments; otherwise every declared placeholder is bound in order from the
merged argument bag and the bound callable is applied to the resulting
values. -/
def runFactory (factory : DFactory) (resolveArgs : Option ResolveArgs)
    (itemName : String) (resolveHistory : List HistoryRecord) :
    Except DiError Value :=
  match factory.placeholderArgs with
  | none => .ok (applyBody factory.body [])
  | some placeholderArgs =>
    let usable := usableArgs resolveArgs itemName
    match placeholderArgs.mapM (bindPlaceholderArg usable itemName resolveHistory) with
    | .error e => .error e
    | .ok resolveArgValues => .ok (applyBody factory.body resolveArgValues)

/-- The resolve options object passed through dependency resolution
(`{isOptional}`). -/
structure ResolveOptions where
  isOptional : Bool := false

/-- The return value of `resolveFactory`:
`{resolvedFactory, history, state}`. -/
structure ResolveResult where
  resolvedFactory : DFactory
  history : List HistoryRecord
  state : InjectorState

/-- `resolveSingletonAsFactory` (`resolver.js` lines 239-254): wrap the
cached singleton value in a zero-argument factory with
`$$placeholderArgs = []` and `$$isSingleton = true`. -/
def resolveSingletonAsFactory (injectorState : InjectorState)
    (itemName : String) : DFactory :=
  DFactory.mk (.ret ((injectorState.singletons itemName).getD Value.undef))
    [] (some []) false none none false true

/-- `getFactoryForUndefined` (`resolver.js` lines 261-273): a factory that
only returns `undefined`, with `$$placeholderArgs = []` and
`$$isUndefined = true`. -/
def getFactoryForUndefined : DFactory :=
  DFactory.mk (.ret Value.undef) [] (some []) false none none true false

/-- `getPlaceholderArguments` (`resolver.js` lines 219-230): the
placeholder-tagged entries of the `$inject` list. -/
def getPlaceholderArguments (factory : DFactory) : List InjectionRequest :=
  factory.inject.filter (fun injectItem => injectItem.isPlaceholder)

/-- `curryFactory` (`resolver.js` lines 197-211): apply
`lodashPartial(factory, ...curryArgs)` (a `none` entry is the lodash
placeholder token), store the placeholder arguments on the result, and
carry the `$filename`, `$$registerSourceFile` and `$singleton` decorators
through when they are truthy.  The resulting function object carries no
`$inject` of its own. -/
def curryFactory (factory : DFactory) (curryArgs : List (Option Value)) :
    DFactory :=
  DFactory.mk (.curried factory.body curryArgs)
    []
    (some (getPlaceholderArguments factory))
    factory.singleton
    (truthyOrNone factory.filename)
    (truthyOrNone factory.registerSourceFile)
    false false

/-- The cyclicity test of `resolver.js` lines 152-154: the dependency name
equals the currently-resolving item name or appears anywhere in the
accumulated resolve history. -/
def isCyclicDep (itemName injectionName : String)
    (resolveHistory : List HistoryRecord) : Bool :=
  itemName == injectionName
    || resolveHistory.any (fun ancestor => ancestor.name == injectionName)

mutual

/-- `resolveFactory` (`resolver.js` lines 41-116).  The first argument is
the fuel making the recursion total.  Decision order as in the source:
singleton-cache short-circuit (a JavaScript truthiness test), unregistered
name (synthetic undefined factory when optional, not-registered error
otherwise), recursive dependency injection, singleton materialization
(which derives a new state), and finally the plain return of the curried
factory together with the ORIGINAL input state. -/
def resolveFactory : Nat → InjectorState → String → Option ResolveArgs →
    List HistoryRecord → Option ResolveOptions →
    Except DiError ResolveResult
  | 0, _, _, _, _, _ => .error .fuelOut
  | fuel + 1, injectorState, itemName, resolveArgs, resolveHistory,
      options =>
    if optTruthy (injectorState.singletons itemName) then
      let resolvedFactory := resolveSingletonAsFactory injectorState itemName
      .ok ⟨resolvedFactory,
           addToHistory resolveHistory itemName resolvedFactory,
           injectorState⟩
    else
      let isOptional := (options.getD {}).isOptional
      match injectorState.registered itemName with
      | none =>
        if isOptional then
          let resolvedFactory := getFactoryForUndefined
          .ok ⟨resolvedFactory,
               addToHistory resolveHistory itemName resolvedFactory,
               injectorState⟩
        else
          .error (.notRegistered itemName
            (addToHistoryRaw resolveHistory itemName none none false))
      | some registeredFactory =>
        let safeResolveArgs := resolveArgs.getD emptyResolveArgs
        let newResolveHistory :=
          addToHistory resolveHistory itemName registeredFactory
        match dependencyInjectFactory fuel injectorState registeredFactory
            itemName safeResolveArgs newResolveHistory with
        | .error e => .error e
        | .ok (injectedFactory, newInjectorState) =>
          if injectedFactory.singleton then
            match runFactory injectedFactory resolveArgs itemName
                newResolveHistory with
            | .error e => .error e
            | .ok singletonInstance =>
              let newSingletonInjectorState : InjectorState :=
                { newInjectorState with
                  singletons := setMap newInjectorState.singletons itemName
                    singletonInstance }
              .ok ⟨resolveSingletonAsFactory newSingletonInjectorState
                     itemName,
                   newResolveHistory, newSingletonInjectorState⟩
          else
            .ok ⟨injectedFactory, newResolveHistory, injectorState⟩

/-- `dependencyInjectFactory` (`resolver.js` lines 128-187): nothing to do
when `$inject` is empty; otherwise resolve each injection request in order
and curry the factory over the resulting dependency list. -/
def dependencyInjectFactory : Nat → InjectorState → DFactory → String →
    ResolveArgs → List HistoryRecord →
    Except DiError (DFactory × InjectorState)
  | 0, _, _, _, _, _ => .error .fuelOut
  | fuel + 1, injectorState, factory, itemName, resolveArgs,
      resolveHistory =>
    if factory.inject.isEmpty then
      .ok (factory, injectorState)
    else
      match processInject fuel injectorState itemName resolveArgs
          resolveHistory factory.inject injectorState with
      | .error e => .error e
      | .ok (dependencies, updatedState) =>
        .ok (curryFactory factory dependencies, updatedState)

/-- The body of the `$inject.map` callback of `dependencyInjectFactory`
(`resolver.js` lines 142-181) as a fold: placeholders pass through as a
positional gap (`none`); other requests run the cycle check against the
state AT ENTRY to `dependencyInjectFactory` (`entryState`, the
`injectorState` captured by the closure) and are then resolved against the
threaded `updatedState`, kept as a factory when `asFactory` or invoked via
`runFactory` otherwise. -/
def processInject : Nat → InjectorState → String → ResolveArgs →
    List HistoryRecord → List InjectionRequest → InjectorState →
    Except DiError (List (Option Value) × InjectorState)
  | 0, _, _, _, _, _, _ => .error .fuelOut
  | fuel + 1, entryState, itemName, resolveArgs, resolveHistory,
      injectItems, updatedState =>
    match injectItems with
    | [] => .ok ([], updatedState)
    | injectItem :: rest =>
      if injectItem.isPlaceholder then
        match processInject fuel entryState itemName resolveArgs
            resolveHistory rest updatedState with
        | .error e => .error e
        | .ok (ds, finalState) => .ok (none :: ds, finalState)
      else
        let injectionName := injectItem.name
        if isCyclicDep itemName injectionName resolveHistory
            && !(optTruthy (entryState.singletons injectionName)) then
          .error (.cyclicDependency injectionName
            (addToHistoryRaw resolveHistory injectionName none none false))
        else
          match resolveFactory fuel updatedState injectionName
              (some resolveArgs) resolveHistory
              (some { isOptional := injectItem.isOptional }) with
          | .error e => .error e
          | .ok res =>
            match (if injectItem.asFactory then
                     Except.ok (Value.vfn res.resolvedFactory)
                   else
                     runFactory res.resolvedFactory (some resolveArgs)
                       injectionName resolveHistory) with
            | .error e => .error e
            | .ok depValue =>
              match processInject fuel entryState itemName resolveArgs
                  resolveHistory rest res.state with
              | .error e => .error e
              | .ok (ds, finalState) =>
                .ok (some depValue :: ds, finalState)

end

/-- One entry of an explicit `$inject` array: a string specifier, an
object (whose `name` may be absent/empty, modelled as `""`), or a value of
any other type. -/
inductive InjectSpec where
  | str (s : String)
  | obj (req : InjectionRequest)
  | other
deriving Repr

/-- The `$inject` declaration found on a factory before parsing:
absent/falsy, the literal `true`, an array of specifiers, or any other
truthy (non-array) value. -/
inductive InjectDecl where
  | dnone
  | dtrue
  | arr (specs : List InjectSpec)
  | badTruthy

/-- One entry of a `$placeholders` array. -/
inductive PlaceholderSpec where
  | str (s : String)
  | other

/-- The `$placeholders` declaration: absent/falsy, an array, or another
truthy value. -/
inductive PlaceholdersDecl where
  | pnone
  | arr (specs : List PlaceholderSpec)
  | badTruthy

/-- A factory as handed to registration, before its `$inject` is parsed.
`params` models the formal-parameter text extracted by
`FUNCTION_ARGUMENT_REGEXP`: the comma-separated pieces of the argument
list with all whitespace removed (so `function ()` gives `[]` and a
trailing comma leaves a final `""` piece).  The regex-mismatch error
branch of the source is unreachable here because the parameter text is
carried as data. -/
structure RawFactory where
  params : List String := []
  body : Body
  injectDecl : InjectDecl := .dnone
  placeholders : PlaceholdersDecl := .pnone
  singleton : Bool := false
  filename : Option Value := none
  registerSourceFile : Option Value := none

/-- `addToHistory` applied to a raw (not yet resolved) factory. -/
def addToHistoryR (history : List HistoryRecord) (itemName : String)
    (f : RawFactory) : List HistoryRecord :=
  addToHistoryRaw history itemName (truthyOrNone f.filename)
    (truthyOrNone f.registerSourceFile) false

/-- The character class `[a-zA-Z0-9_$]` of the sanitizing regex. -/
def isWordChar (c : Char) : Bool :=
  c.isAlpha || c.isDigit || c = '_' || c = '$'

/-- `name.replace(/[^a-zA-Z0-9_$]/gi, "")`. -/
def sanitizeName (s : String) : String :=
  String.mk (s.toList.filter isWordChar)

/-- `s.indexOf("()") !== -1`: the string contains the two-character
substring `()`. -/
def containsParenPair : List Char → Bool
  | [] => false
  | c :: rest =>
    (c = '(' && rest.head? = some ')') || containsParenPair rest

/-- `s.slice(-1) === c`: the last character of the string is `c`. -/
def lastCharIs (s : String) (c : Char) : Bool :=
  match s.toList.getLast? with
  | some d => d == c
  | none => false

/-- `s.indexOf(c) !== -1`: the string contains the character `c`. -/
def hasChar (s : String) (c : Char) : Bool :=
  s.toList.contains c

/-- `s.split(c)[0]`: the prefix of the string before the first `c` (the
whole string when `c` does not occur). -/
def beforeChar (s : String) (c : Char) : String :=
  String.mk (s.toList.takeWhile (fun d => !(d == c)))

/-- Which formal parameters count as placeholders
(`PLACEHOLDER_TYPE_ALL` / `PLACEHOLDER_TYPE_OPTIONAL` /
`PLACEHOLDER_TYPE_LIST` in `injector.js`). -/
inductive PlaceholderType where
  | all
  | optionalOnly
  | list

/-- `buildInjectionRequest` (`injector.js` lines 250-262): only truthy
option flags are kept; with `Bool` flags this fixes `asFactory := false`
here since the callers never pass it. -/
def buildInjectionRequest (name : String)
    (isOptional isPlaceholder : Bool) : InjectionRequest :=
  { name := name, isOptional := isOptional, asFactory := false,
    isPlaceholder := isPlaceholder }

/-- Whether one `$placeholders` entry is invalid: not a string, or a
string whose sanitized name is empty. -/
def isInvalidPlaceholderSpec : PlaceholderSpec → Bool
  | .other => true
  | .str s => sanitizeName s = ""

/-- `getFactoryPlaceholderOptions` (`injector.js` lines 202-241): turn the
`$placeholders` list into a map from sanitized name to its optionality
(trailing `?`); non-array truthy declarations and invalid entries raise,
with all offending indexes reported together.  The `%s` item-name
substitution and history attachment performed by the enclosing catch are
inlined into the structured error. -/
def getFactoryPlaceholderOptions (factory : RawFactory) (itemName : String)
    (registerHistory : List HistoryRecord) :
    Except DiError (String → Option Bool) :=
  match factory.placeholders with
  | .pnone => .ok (fun _ => none)
  | .badTruthy => .error (.nonArrayPlaceholders itemName registerHistory)
  | .arr specs =>
    if specs.isEmpty then .ok (fun _ => none)
    else
      let invalidIndexes :=
        (specs.enum.filter (fun p => isInvalidPlaceholderSpec p.2)).map
          Prod.fst
      if invalidIndexes ≠ [] then
        .error (.invalidPlaceholders itemName invalidIndexes registerHistory)
      else
        .ok (specs.foldl
          (fun m sp =>
            match sp with
            | .str s =>
              fun q => if q = sanitizeName s then some (lastCharIs s '?')
                       else m q
            | .other => m)
          (fun _ => none))

/-- The body of the `cleanedArguments.split(",").reduce` of
`parseFactoryPlaceholderArguments` (`injector.js` lines 166-190): skip
empty pieces (trailing comma); a `=` marks a default value, making the
argument optional and truncating its name; placeholder status and
optionality per the placeholder type, a listed placeholder overriding the
optionality with the one from the `$placeholders` map. -/
def parsePlaceholderPieces (placeholderType : PlaceholderType)
    (placeholderMap : String → Option Bool) :
    List String → List InjectionRequest
  | [] => []
  | piece :: rest =>
    if piece = "" then parsePlaceholderPieces placeholderType placeholderMap rest
    else
      let hasDefault := hasChar piece '='
      let name := if hasDefault then beforeChar piece '='
                  else piece
      let flags :=
        match placeholderType with
        | .all => (true, hasDefault)
        | .optionalOnly => (hasDefault, hasDefault)
        | .list =>
          match placeholderMap name with
          | some fromOptional => (true, fromOptional)
          | none => (false, hasDefault)
      buildInjectionRequest name flags.2 flags.1 ::
        parsePlaceholderPieces placeholderType placeholderMap rest

/-- `parseFactoryPlaceholderArguments` (`injector.js` lines 138-191):
derive injection requests from the formal parameters, consulting the
`$placeholders` map in list mode. -/
def parseFactoryPlaceholderArguments (factory : RawFactory)
    (itemName : String) (registerHistory : List HistoryRecord)
    (placeholderType : PlaceholderType) :
    Except DiError (List InjectionRequest) :=
  match (match placeholderType with
         | .list =>
           getFactoryPlaceholderOptions factory itemName registerHistory
         | _ => .ok (fun _ => none)) with
  | .error e => .error e
  | .ok placeholderMap =>
    .ok (parsePlaceholderPieces placeholderType placeholderMap
      factory.params)

/-- Parse one explicit `$inject` specifier (`injector.js` lines 97-117):
an object with a truthy `name` passes through unchanged; any other
non-string is invalid; a string is sanitized, with trailing `?` marking
optional, a `()` substring marking factory mode and a `*` marking a
placeholder; an empty sanitized name is invalid.  Returns the parsed
request and the invalid flag. -/
def parseInjectSpec : InjectSpec → Option InjectionRequest × Bool
  | .obj req => if req.name ≠ "" then (some req, false) else (none, true)
  | .other => (none, true)
  | .str s =>
    let safeName := sanitizeName s
    (some { name := safeName, isOptional := lastCharIs s '?',
            asFactory := containsParenPair s.toList,
            isPlaceholder := hasChar s '*' },
     safeName = "")

/-- `parseFactoryInjectionArguments` (`injector.js` lines 86-128): a
non-array `$inject` raises; otherwise every specifier is parsed and all
invalid indexes are reported together in a single error. -/
def parseFactoryInjectionArguments (itemName : String) (decl : InjectDecl)
    (registerHistory : List HistoryRecord) :
    Except DiError (List InjectionRequest) :=
  match decl with
  | .arr specs =>
    let parsed := specs.map parseInjectSpec
    let invalidIndexes :=
      (parsed.enum.filter (fun p => p.2.2)).map Prod.fst
    if invalidIndexes ≠ [] then
      .error (.invalidInject itemName invalidIndexes registerHistory)
    else
      .ok (parsed.map (fun p => p.1.getD { name := "" }))
  | _ => .error (.nonArrayInject itemName registerHistory)

/-- `validateFunctionArgumentCount` (`injector.js` lines 272-293): the
number of injected requests must equal the formal-parameter count taken
from the function text (the comma-split count, `0` for an empty argument
list). -/
def validateFunctionArgumentCount (factory : RawFactory)
    (itemName : String) (factoryArgsCount : Nat) :
    Except DiError Unit :=
  let expectedArgsCount := factory.params.length
  if factoryArgsCount ≠ expectedArgsCount then
    .error (.countMismatch itemName factoryArgsCount expectedArgsCount
      (addToHistoryR [] itemName factory))
  else
    .ok ()

/-- `parseFactoryInject` (`injector.js` lines 54-78): no `$inject` means
every formal parameter is a placeholder; `$inject === true` means
placeholders come from the `$placeholders` list; an explicit array is
parsed and then checked against the formal-parameter count. -/
def parseFactoryInject (factory : RawFactory) (itemName : String)
    (registerHistory : List HistoryRecord) :
    Except DiError (List InjectionRequest) :=
  match factory.injectDecl with
  | .dnone =>
    parseFactoryPlaceholderArguments factory itemName registerHistory .all
  | .dtrue =>
    parseFactoryPlaceholderArguments factory itemName registerHistory .list
  | d =>
    match parseFactoryInjectionArguments itemName d registerHistory with
    | .error e => .error e
    | .ok injectionArgs =>
      match validateFunctionArgumentCount factory itemName
          injectionArgs.length with
      | .error e => .error e
      | .ok _ => .ok injectionArgs

/-- The options accepted by `register` (`index.js` `RegisterOptions`). -/
structure RegisterOptions where
  forceSingleton : Bool := false
  filename : Option Value := none
  skipTraceErrors : Bool := false
  registerSourceFile : Option Value := none

/-- The decorator-stamping prefix of `registerFactory` (registration
module lines 15-31): force the singleton flag, override the filename, and
resolve `$$registerSourceFile` as explicit option, else the container
label, else undefined. -/
def stampFactory (injectorState : InjectorState) (factory : RawFactory)
    (options : RegisterOptions) : RawFactory :=
  { factory with
    singleton := if options.forceSingleton then true else factory.singleton,
    filename := if optTruthy options.filename then options.filename
                else factory.filename,
    registerSourceFile :=
      if optTruthy options.registerSourceFile then
        options.registerSourceFile
      else if optTruthy injectorState.meta.registerSourceFile then
        injectorState.meta.registerSourceFile
      else none }

/-- The non-fatal part of `validateFactory`: the warning logged when the
stamped factory has no truthy `$filename`. -/
def validateFactoryWarnings (factory : RawFactory) (itemName : String) :
    List RegisterWarning :=
  if optTruthy factory.filename then [] else [.missingFilename itemName]

/-- The decorated factory inserted into the registry: the stamped raw
factory with its parsed `$inject` attached (`factory.$inject = ...`);
`$$placeholderArgs` is not set at registration time. -/
def decorateFactory (factory : RawFactory)
    (inject : List InjectionRequest) : DFactory :=
  DFactory.mk factory.body inject none factory.singleton factory.filename
    factory.registerSourceFile false false

/-- `registerFactory` (registration module lines 14-52): stamp the
decorators, validate them unless trace errors are skipped by the per-call
option or the container flag (missing register source is a hard error,
missing filename only a logged warning), parse `$inject`, and produce the
new state with the entry added to a structurally new registry map. -/
def registerFactory (injectorState : InjectorState) (itemName : String)
    (factory : RawFactory) (options : RegisterOptions) :
    Except DiError (InjectorState × List RegisterWarning) :=
  let stamped := stampFactory injectorState factory options
  let registerHistory := addToHistoryR [] itemName stamped
  let doValidate :=
    !options.skipTraceErrors && !injectorState.meta.skipTraceErrors
  let warnings :=
    if doValidate then validateFactoryWarnings stamped itemName else []
  if doValidate && !(optTruthy stamped.registerSourceFile) then
    .error (.missingRegisterSource itemName registerHistory)
  else
    match parseFactoryInject stamped itemName registerHistory with
    | .error e => .error e
    | .ok inject =>
      .ok ({ injectorState with
             registered := setMap injectorState.registered itemName
               (decorateFactory stamped inject) },
           warnings)

/-- What application code hands to `register`: a factory function or a
plain (non-function) value. -/
inductive RegisterInput where
  | func (f : RawFactory)
  | value (v : Value)

/-- JavaScript property read on an arbitrary value: only objects carry
properties here; a duplicate key keeps the later binding. -/
def getProp : Value → String → Option Value
  | .vobj fields, k =>
    (fields.reverse.find? (fun f => f.1 = k)).map Prod.snd
  | _, _ => none

/-- The non-function wrapping of `register` (`index.js` lines 105-117): a
zero-parameter always-singleton factory returning the value, preserving a
truthy `$filename` tag carried by a truthy value. -/
def wrapValue (v : Value) : RawFactory :=
  { params := [], body := .ret v, injectDecl := .dnone,
    placeholders := .pnone, singleton := true,
    filename :=
      if jsTruthy v && optTruthy (getProp v "$filename") then
        getProp v "$filename"
      else none,
    registerSourceFile := none }

/-- Functions register as themselves, anything else is wrapped. -/
def toFactory : RegisterInput → RawFactory
  | .func f => f
  | .value v => wrapValue v

/-- The public `register` entry point (`index.js` lines 95-122), returning
the new state instead of swapping it in place. -/
def diRegister (injectorState : InjectorState) (itemName : String)
    (input : RegisterInput) (options : RegisterOptions) :
    Except DiError (InjectorState × List RegisterWarning) :=
  if itemName = "" then .error .noItemName
  else registerFactory injectorState itemName (toFactory input) options

/-- The public `resolve` entry point in value mode (`index.js` lines
135-153, `asFactory` not set): resolve the factory (empty initial history,
no options) and invoke it via `runFactory`, returning the produced value
together with the adopted new state. -/
def diResolveValue (fuel : Nat) (injectorState : InjectorState)
    (itemName : String) (resolveArgs : Option ResolveArgs) :
    Except DiError (Value × InjectorState) :=
  if itemName = "" then .error .noItemName
  else
    match resolveFactory fuel injectorState itemName resolveArgs [] none with
    | .error e => .error e
    | .ok res =>
      match runFactory res.resolvedFactory resolveArgs itemName
          res.history with
      | .error e => .error e
      | .ok v => .ok (v, res.state)

/-! ### Specification-side definitions (for refinement comparison)

The two definitions below transcribe the WORDS of spec §4.4 for the
invocation argument bag, to be compared with the source-derived
`usableArgs`/`bindPlaceholderArg` above. -/

/-- Spec §4.4: the per-call argument bag is the merge of the shared
(`common`) argument set with the per-item-name argument set, per-item
entries taking precedence over shared ones on key collision. -/
def usableArgsSpec (resolveArgs : Option ResolveArgs) (itemName : String) :
    ArgsMap :=
  fun k =>
    match (resolveArgs.getD emptyResolveArgs itemName).getD emptyArgsMap k with
    | some v => some v
    | none => (resolveArgs.getD emptyResolveArgs "common").getD emptyArgsMap k

/-- Spec §4.4: for each declared placeholder, in order, use the bag value
if defined; else, if optional, pass absent; else fail with a binding error
naming the item and the missing parameter. -/
def bindPlaceholderArgSpec (bag : ArgsMap) (itemName : String)
    (resolveHistory : List HistoryRecord) (pa : InjectionRequest) :
    Except DiError Value :=
  if isUndef (getJs bag pa.name) = false then
    .ok (getJs bag pa.name)
  else if pa.isOptional then
    .ok Value.undef
  else
    .error (.missingPlaceholder itemName pa.name resolveHistory)

/-! ### Concrete test states -/

/-- A bare injector state: nothing registered, no singletons, no meta. -/
def emptyState : InjectorState := ⟨fun _ => none, fun _ => none, {}⟩

/-- State whose singleton cache holds the truthy value `5` for `x`. -/
def csW : InjectorState :=
  ⟨fun _ => none,
   fun k => if k = "x" then some (.vnum 5) else none, {}⟩

/-- State whose singleton cache holds the FALSY value `false` for `n`,
while the registry holds a singleton factory for `n` returning `7`. -/
def cs1 : InjectorState :=
  ⟨fun k => if k = "n" then
      some (DFactory.mk (.ret (.vnum 7)) [] none true none none false false)
    else none,
   fun k => if k = "n" then some (.vbool false) else none, {}⟩

/-- A non-singleton factory for `a` depending on `b`. -/
def c2fa : DFactory :=
  DFactory.mk (.ret (.vnum 1)) [{ name := "b" }] none false none none
    false false

/-- A singleton leaf factory for `b` returning `2`. -/
def c2fb : DFactory :=
  DFactory.mk (.ret (.vnum 2)) [] none true none none false false

/-- Registry with non-singleton `a` depending on singleton `b`; empty
singleton cache. -/
def c2state : InjectorState :=
  ⟨fun k => if k = "a" then some c2fa
    else if k = "b" then some c2fb else none,
   fun _ => none, {}⟩

/-- The result of resolving `a` in `c2state`: the curried factory over
`b`'s materialized value, a single history record, and the ORIGINAL state
(the `b` cache entry is dropped). -/
def c2res : ResolveResult :=
  ⟨DFactory.mk (.curried (.ret (.vnum 1)) [some (.vnum 2)]) [] (some [])
     false none none false false,
   [{ name := "a" }], c2state⟩

/-- Registry with the cycle `a -> b -> a` and an empty singleton cache. -/
def c3state0 : InjectorState :=
  ⟨fun k => if k = "a" then
      some (DFactory.mk (.ret (.vnum 1)) [{ name := "b" }] none false none
        none false false)
    else if k = "b" then
      some (DFactory.mk (.ret (.vnum 2)) [{ name := "a" }] none false none
        none false false)
    else none,
   fun _ => none, {}⟩

/-- The cyclic registry of `c3state0` with the FALSY value `false` cached
as the singleton for `a`. -/
def c3state : InjectorState :=
  ⟨c3state0.registered,
   fun k => if k = "a" then some (.vbool false) else none, {}⟩

/-- Argument bags for the C6 witness: the shared set binds `z` to
`commonVal`, the per-item set for `c` binds `z` to `itemWins`. -/
def c6args : Option ResolveArgs :=
  some (fun k =>
    if k = "c" then
      some (fun q => if q = "z" then some (.vstr "itemWins") else none)
    else if k = "common" then
      some (fun q => if q = "z" then some (.vstr "commonVal") else none)
    else none)

/-- The C6 witness factory: one placeholder `z`, body returning its first
call argument. -/
def c6f : DFactory :=
  DFactory.mk (.arg 0) [] (some [{ name := "z", isPlaceholder := true }])
    false none none false false

/-- The C7 witness factory: two formal parameters but a single-entry
explicit `$inject` list. -/
def c7f : RawFactory :=
  { params := ["x", "y"], body := .ret .undef,
    injectDecl := .arr [.str "a"] }

/-- The C8 witness raw factory: a body with no decorations at all. -/
def c8f : RawFactory := { body := .ret (.vnum 1) }

/-- The C8 witness options: an explicit register source, no filename. -/
def c8o : RegisterOptions :=
  { registerSourceFile := some (.vstr "src.js") }

/-- The register options used by the C9 concrete runs: an explicit
register source so that validation passes. -/
def c9opts : RegisterOptions :=
  { registerSourceFile := some (.vstr "source.js") }

/-- The state produced by the C9 witness registration. -/
def c9s2 : InjectorState :=
  { emptyState with
    registered :=
      setMap emptyState.registered "val"
        (decorateFactory
          (stampFactory emptyState (wrapValue (.vstr "hello")) c9opts)
          []) }

/-- The C10 witness factory: one REQUIRED placeholder `z`. -/
def c10f : DFactory :=
  DFactory.mk (.arg 0) [] (some [{ name := "z", isPlaceholder := true }])
    false none none false false

/-- Argument bags for the C10 witness: the shared set binds `z` to a
defined value, but the per-item set for `it` binds `z` to `undefined`,
shadowing it. -/
def c10args : Option ResolveArgs :=
  some (fun k =>
    if k = "it" then
      some (fun q => if q = "z" then some Value.undef else none)
    else if k = "common" then
      some (fun q => if q = "z" then some (.vnum 1) else none)
    else none)

/-! ### Helper lemmas -/

/-- Appending a history record appends exactly one name. -/
theorem addToHistoryRaw_names (h : List HistoryRecord) (n : String)
    (fp rs : Option Value) (nf : Bool) :
    (addToHistoryRaw h n fp rs nf).map HistoryRecord.name =
      h.map HistoryRecord.name ++ [n] := by
  simp [addToHistoryRaw]

/-- `dependencyInjectFactory` preserves the `$singleton` decoration of the
factory it curries. -/
theorem dependencyInjectFactory_singleton_flag (fuel : Nat)
    (s : InjectorState) (f : DFactory) (n : String) (args : ResolveArgs)
    (h : List HistoryRecord) (inj : DFactory) (st : InjectorState)
    (hok : dependencyInjectFactory fuel s f n args h = .ok (inj, st)) :
    inj.singleton = f.singleton := by
  match fuel with
  | 0 => simp [dependencyInjectFactory] at hok
  | fuel + 1 =>
    rw [dependencyInjectFactory] at hok
    split at hok
    · cases hok; rfl
    · split at hok
      · cases hok
      · cases hok; rfl

/-- A truthy singleton-cache entry makes `resolveFactory` return through
the short-circuit branch: the synthetic wrapper, one appended history
record, and the unchanged state. -/
theorem resolveFactory_singleton_hit (fuel : Nat) (s : InjectorState)
    (itemName : String) (resolveArgs : Option ResolveArgs)
    (resolveHistory : List HistoryRecord) (options : Option ResolveOptions)
    (v : Value) (hv : s.singletons itemName = some v)
    (ht : jsTruthy v = true) :
    resolveFactory (fuel + 1) s itemName resolveArgs resolveHistory
        options =
      .ok ⟨resolveSingletonAsFactory s itemName,
           addToHistory resolveHistory itemName
             (resolveSingletonAsFactory s itemName), s⟩ := by
  have hTrue : optTruthy (s.singletons itemName) = true := by
    rw [hv]; exact ht
  rw [resolveFactory]
  simp [hTrue]

/-! ### C1 -/

/-- C1 (counterexample): in `cs1` the singleton cache holds a value
(`false`) for `n`, yet resolving `n` does NOT return the cached value via
the short-circuit: the registry is consulted, the singleton body runs
again, its fresh result `7` is returned and even overwrites the cache
entry, because the short-circuit tests JavaScript truthiness rather than
presence. -/
theorem singleton_cache_falsy_counterexample :
    cs1.singletons "n" = some (.vbool false) ∧
    (resolveFactory 5 cs1 "n" none [] none).map
        (fun r => (r.resolvedFactory.body, r.state.singletons "n")) =
      .ok (Body.ret (.vnum 7), some (.vnum 7)) :=
  ⟨rfl, rfl⟩

/-- C1 (amended): once a TRUTHY value for a name is present in the
singleton cache, any resolve of that name (with any fuel, arguments,
history and options) returns the cached value wrapped in the synthetic
singleton factory, appends one history record, and leaves the state
unchanged — the registry is never consulted and no factory body runs. -/
theorem singleton_short_circuit_truthy (fuel : Nat) (s : InjectorState)
    (itemName : String) (resolveArgs : Option ResolveArgs)
    (resolveHistory : List HistoryRecord) (options : Option ResolveOptions)
    (v : Value) (hv : s.singletons itemName = some v)
    (ht : jsTruthy v = true) :
    resolveFactory (fuel + 1) s itemName resolveArgs resolveHistory
        options =
      .ok ⟨resolveSingletonAsFactory s itemName,
           addToHistory resolveHistory itemName
             (resolveSingletonAsFactory s itemName), s⟩
    ∧ (resolveSingletonAsFactory s itemName).body = .ret v
    ∧ (resolveSingletonAsFactory s itemName).isSingleton = true
    ∧ (resolveSingletonAsFactory s itemName).placeholderArgs = some [] := by
  refine ⟨resolveFactory_singleton_hit fuel s itemName resolveArgs
    resolveHistory options v hv ht, ?_, rfl, rfl⟩
  simp [resolveSingletonAsFactory, hv, DFactory.body]

/-- C1 (witness): the short-circuit at the concrete state `csW` whose
cache holds `5` for `x`. -/
theorem singleton_short_circuit_truthy_witness :
    resolveFactory 3 csW "x" none [] none =
      .ok ⟨resolveSingletonAsFactory csW "x",
           addToHistory [] "x" (resolveSingletonAsFactory csW "x"), csW⟩
    ∧ (resolveSingletonAsFactory csW "x").body = .ret (.vnum 5)
    ∧ (resolveSingletonAsFactory csW "x").isSingleton = true
    ∧ (resolveSingletonAsFactory csW "x").placeholderArgs = some [] :=
  singleton_short_circuit_truthy 2 csW "x" none [] none (.vnum 5) rfl rfl

/-! ### C2 -/

/-- C2 (counterexample): resolving the NON-singleton `a` whose dependency
`b` is a singleton: `b`'s value `2` is materialized (it sits curried
inside the resolved factory), yet the state returned by the resolve call
is the original one — its singleton cache has no entry for `b`. -/
theorem nonsingleton_state_drop_counterexample :
    c2fb.singleton = true ∧
    (resolveFactory 9 c2state "a" none [] none).map
        (fun r => (r.resolvedFactory.body, r.state.singletons "b")) =
      .ok (Body.curried (.ret (.vnum 1)) [some (.vnum 2)], none) :=
  ⟨rfl, rfl⟩

/-- C2 (amended): state is threaded through the recursive dependency
resolution, but only a resolve whose item is itself a singleton returns a
state carrying new cache entries (in particular its own); a resolve of a
non-singleton item returns the ORIGINAL input state, discarding every
singleton materialized while resolving its dependencies. -/
theorem resolve_state_threading_amended (fuel : Nat) (s : InjectorState)
    (itemName : String) (args : Option ResolveArgs)
    (h : List HistoryRecord) (opts : Option ResolveOptions) (f : DFactory)
    (r : ResolveResult)
    (hreg : s.registered itemName = some f)
    (hsing : optTruthy (s.singletons itemName) = false)
    (hok : resolveFactory (fuel + 1) s itemName args h opts = .ok r) :
    (f.singleton = false → r.state = s)
    ∧ (f.singleton = true →
        ∃ v, r.state.singletons itemName = some v) := by
  rw [resolveFactory] at hok
  simp only [hsing, Bool.false_eq_true, if_false, hreg] at hok
  cases hd : dependencyInjectFactory fuel s f itemName
      (args.getD emptyResolveArgs) (addToHistory h itemName f) with
  | error e => rw [hd] at hok; cases hok
  | ok p =>
    obtain ⟨inj, ns⟩ := p
    rw [hd] at hok
    have hflag := dependencyInjectFactory_singleton_flag fuel s f itemName
      (args.getD emptyResolveArgs) (addToHistory h itemName f) inj ns hd
    simp only at hok
    by_cases hs : inj.singleton
    · simp only [hs, if_true] at hok
      cases hrun : runFactory inj args itemName (addToHistory h itemName f)
        with
      | error e => rw [hrun] at hok; cases hok
      | ok v =>
        rw [hrun] at hok
        cases hok
        constructor
        · intro hf; rw [hf] at hflag; rw [hflag] at hs; cases hs
        · intro _
          exact ⟨v, by simp [setMap]⟩
    · simp only [hs, if_false] at hok
      cases hok
      constructor
      · intro _; rfl
      · intro hf; rw [hf] at hflag
        exact absurd hflag (by simp [hs])

/-- C2 (witness): applying the amended theorem at `c2state` shows the
state returned for the non-singleton `a` is exactly the input state. -/
theorem resolve_state_threading_amended_witness :
    resolveFactory 9 c2state "a" none [] none = .ok c2res ∧
    c2res.state = c2state :=
  ⟨rfl,
   (resolve_state_threading_amended 8 c2state "a" none [] none c2fa c2res
     rfl rfl rfl).1 rfl⟩

/-! ### C3 -/

/-- C3 (counterexample): in `c3state` the cycle `a -> b -> a` has `a`
PRESENT in the singleton cache (with the falsy value `false`), yet
resolving `a` still fails with the cyclic-dependency error naming `a`,
because the cycle-break test uses JavaScript truthiness, not presence. -/
theorem cyclic_cached_falsy_counterexample :
    c3state.singletons "a" = some (.vbool false) ∧
    resolveFactory 9 c3state "a" none [] none =
      .error (.cyclicDependency "a"
        [{ name := "a" }, { name := "b" }, { name := "a" }]) :=
  ⟨rfl, rfl⟩

/-- C3 (amended): a dependency is cyclic exactly when its name equals the
currently-resolving item's name or appears in the accumulated history; a
cyclic dependency whose cache entry is missing or FALSY fails immediately
with the cyclic-dependency error naming it, while a cyclic dependency
cached with a TRUTHY singleton value resolves without raising; and the
concrete `a -> b -> a` cycle fails naming `a`. -/
theorem cyclic_dependency_detection_amended (fuel : Nat)
    (s : InjectorState) (itemName : String) (args : ResolveArgs)
    (h : List HistoryRecord) (item : InjectionRequest)
    (upState : InjectorState) (hnp : item.isPlaceholder = false) :
    (isCyclicDep itemName item.name h = true ↔
      (item.name = itemName ∨ ∃ rec ∈ h, rec.name = item.name))
    ∧ (isCyclicDep itemName item.name h = true →
       optTruthy (s.singletons item.name) = false →
       processInject (fuel + 1) s itemName args h [item] upState =
         .error (.cyclicDependency item.name
           (addToHistoryRaw h item.name none none false)))
    ∧ (∀ v, isCyclicDep itemName item.name h = true →
       s.singletons item.name = some v → jsTruthy v = true →
       ∃ out, processInject (fuel + 2) s itemName args h [item] s =
         .ok out)
    ∧ resolveFactory 9 c3state0 "a" none [] none =
        .error (.cyclicDependency "a"
          [{ name := "a" }, { name := "b" }, { name := "a" }]) := by
  refine ⟨?_, ?_, ?_, rfl⟩
  · simp only [isCyclicDep, Bool.or_eq_true, beq_iff_eq,
      List.any_eq_true]
    exact or_congr eq_comm Iff.rfl
  · intro hcyc hfalsy
    rw [processInject]
    simp [hnp, hcyc, hfalsy]
  · intro v hcyc hv ht
    have hTrue : optTruthy (s.singletons item.name) = true := by
      rw [hv]; exact ht
    rw [processInject]
    simp only [hnp, Bool.false_eq_true, if_false, hcyc, hTrue,
      Bool.not_true, Bool.and_false, Bool.true_and]
    rw [resolveFactory_singleton_hit fuel s item.name (some args) h
      (some { isOptional := item.isOptional }) v hv ht]
    by_cases ha : item.asFactory
    · simp only [ha, if_true]
      rw [processInject]
      exact ⟨([some (Value.vfn (resolveSingletonAsFactory s item.name))],
        s), rfl⟩
    · simp only [ha, Bool.false_eq_true, if_false]
      rw [runFactory]
      simp only [resolveSingletonAsFactory, DFactory.placeholderArgs,
        List.mapM_nil]
      rw [processInject]
      exact ⟨([some ((s.singletons item.name).getD Value.undef)], s), rfl⟩

/-- C3 (witness): the cyclic-failure branch of the amended theorem at a
concrete input — dependency `a` of item `b` with `a` already in the
history and `a` cached with the falsy `false`. -/
theorem cyclic_dependency_detection_amended_witness :
    processInject 5 c3state "b" emptyResolveArgs [{ name := "a" }]
      [{ name := "a" }] c3state =
      .error (.cyclicDependency "a" [{ name := "a" }, { name := "a" }]) :=
  (cyclic_dependency_detection_amended 4 c3state "b" emptyResolveArgs
    [{ name := "a" }] { name := "a" } c3state rfl).2.1 rfl rfl

/-! ### C4 -/

/-- C4 (counterexample): resolving `a` in `c2state` visits both `a` and
its dependency `b` (the materialized `2` inside the curried body proves
`b` was resolved and run), yet the history returned by the resolve call
names `a` only — the histories of nested recursive resolutions are not
merged into the returned one. -/
theorem history_missing_nested_counterexample :
    (resolveFactory 9 c2state "a" none [] none).map
        (fun r => (r.history.map HistoryRecord.name,
                   r.resolvedFactory.body)) =
      .ok (["a"], Body.curried (.ret (.vnum 1)) [some (.vnum 2)]) :=
  rfl

/-- C4 (amended): the history returned by a resolve call extends the
incoming history with exactly one record, the one for the resolved item
itself; records created inside nested recursive resolutions are passed
down for cycle detection and error traces but do not appear in the
returned history. -/
theorem resolve_history_single_record (fuel : Nat) (s : InjectorState)
    (itemName : String) (args : Option ResolveArgs)
    (h : List HistoryRecord) (opts : Option ResolveOptions)
    (r : ResolveResult)
    (hok : resolveFactory (fuel + 1) s itemName args h opts = .ok r) :
    r.history.map HistoryRecord.name =
      h.map HistoryRecord.name ++ [itemName] := by
  rw [resolveFactory] at hok
  by_cases hc : optTruthy (s.singletons itemName)
  · simp only [hc, if_true] at hok
    cases hok
    exact addToHistoryRaw_names h itemName _ _ _
  · simp only [hc, Bool.false_eq_true, if_false] at hok
    cases hreg : s.registered itemName with
    | none =>
      rw [hreg] at hok
      simp only at hok
      split at hok
      · cases hok
        exact addToHistoryRaw_names h itemName _ _ _
      · cases hok
    | some registeredFactory =>
      rw [hreg] at hok
      simp only at hok
      cases hd : dependencyInjectFactory fuel s registeredFactory itemName
          (args.getD emptyResolveArgs)
          (addToHistory h itemName registeredFactory) with
      | error e => rw [hd] at hok; cases hok
      | ok p =>
        obtain ⟨inj, ns⟩ := p
        rw [hd] at hok
        simp only at hok
        split at hok
        · cases hrun : runFactory inj args itemName
              (addToHistory h itemName registeredFactory) with
          | error e => rw [hrun] at hok; cases hok
          | ok v =>
            rw [hrun] at hok
            cases hok
            exact addToHistoryRaw_names h itemName _ _ _
        · cases hok
          exact addToHistoryRaw_names h itemName _ _ _

/-- C4 (witness): the amended theorem at `c2state`: the returned history
is the empty input history plus the one record for `a`. -/
theorem resolve_history_single_record_witness :
    resolveFactory 9 c2state "a" none [] none = .ok c2res ∧
    c2res.history.map HistoryRecord.name =
      ([] : List HistoryRecord).map HistoryRecord.name ++ ["a"] :=
  ⟨rfl,
   resolve_history_single_record 8 c2state "a" none [] none c2res rfl⟩

/-! ### C5 -/

/-- C5: resolving a name with no registry entry and no singleton-cache
entry returns, when the request is optional, the synthetic undefined
factory (which always produces `undefined`) with one appended history
record and no error; when not optional it fails with the not-registered
error whose history trace includes the missing name. -/
theorem unregistered_item_resolution (fuel : Nat) (s : InjectorState)
    (itemName : String) (args : Option ResolveArgs)
    (h : List HistoryRecord) (opts : Option ResolveOptions)
    (hsing : s.singletons itemName = none)
    (hreg : s.registered itemName = none) :
    ((opts.getD {}).isOptional = true →
      resolveFactory (fuel + 1) s itemName args h opts =
        .ok ⟨getFactoryForUndefined,
             addToHistory h itemName getFactoryForUndefined, s⟩
      ∧ getFactoryForUndefined.isUndefined = true
      ∧ (∀ callArgs, applyBody getFactoryForUndefined.body callArgs =
          .undef)
      ∧ (addToHistory h itemName getFactoryForUndefined).map
          HistoryRecord.name = h.map HistoryRecord.name ++ [itemName])
    ∧ ((opts.getD {}).isOptional = false →
      resolveFactory (fuel + 1) s itemName args h opts =
        .error (.notRegistered itemName
          (addToHistoryRaw h itemName none none false))
      ∧ itemName ∈ (addToHistoryRaw h itemName none none false).map
          HistoryRecord.name) := by
  have hc : optTruthy (s.singletons itemName) = false := by
    rw [hsing]; rfl
  constructor
  · intro hopt
    refine ⟨?_, rfl, fun _ => rfl, addToHistoryRaw_names h itemName _ _ _⟩
    rw [resolveFactory]
    simp [hc, hreg, hopt]
  · intro hopt
    refine ⟨?_, by simp [addToHistoryRaw_names]⟩
    rw [resolveFactory]
    simp [hc, hreg, hopt]

/-- C5 (witness): both branches at a concrete empty state — the optional
branch instantiated with `isOptional = true`. -/
theorem unregistered_item_resolution_witness :
    resolveFactory 2 emptyState "miss" none []
        (some { isOptional := true }) =
      .ok ⟨getFactoryForUndefined,
           addToHistory [] "miss" getFactoryForUndefined, emptyState⟩
    ∧ getFactoryForUndefined.isUndefined = true :=
  ⟨((unregistered_item_resolution 1 emptyState "miss" none []
      (some { isOptional := true }) rfl rfl).1 rfl).1,
   ((unregistered_item_resolution 1 emptyState "miss" none []
      (some { isOptional := true }) rfl rfl).1 rfl).2.1⟩

/-! ### C6 -/

/-- C6: with a placeholder-argument list attached, `runFactory` is exactly
the spec-described procedure: bind every declared placeholder, in order,
against the merge of the shared and the per-item argument sets (per-item
wins), passing absent for unfilled optionals and failing with the binding
error naming item and parameter for unfilled required ones, then apply
the bound callable to the resulting values. -/
theorem run_factory_placeholder_binding (f : DFactory)
    (args : Option ResolveArgs) (itemName : String)
    (h : List HistoryRecord) (pas : List InjectionRequest)
    (hp : f.placeholderArgs = some pas) :
    runFactory f args itemName h =
      (pas.mapM (bindPlaceholderArgSpec (usableArgsSpec args itemName)
        itemName h)).map (applyBody f.body) := by
  have hbag : usableArgsSpec args itemName = usableArgs args itemName :=
    rfl
  have hbind : bindPlaceholderArgSpec (usableArgs args itemName) itemName h
      = bindPlaceholderArg (usableArgs args itemName) itemName h := rfl
  rw [hbag, hbind, runFactory, hp]
  cases hm : pas.mapM
      (bindPlaceholderArg (usableArgs args itemName) itemName h) with
  | error e =>
    rw [List.mapM] at hm
    simp [hm, Except.map]
  | ok vals =>
    rw [List.mapM] at hm
    simp [hm, Except.map]

/-- C6 (witness): running the factory binds `z` from the merged bag with
the per-item entry winning over the shared one. -/
theorem run_factory_placeholder_binding_witness :
    runFactory c6f c6args "c" [] = .ok (.vstr "itemWins") := by
  rw [run_factory_placeholder_binding c6f c6args "c" []
    [{ name := "z", isPlaceholder := true }] rfl]
  rfl

/-! ### C7 -/

/-- C7: for a factory declaring an explicit `$inject` list whose
specifiers parse, parsing succeeds only when the number of parsed
requests equals the declared formal-parameter count, and on mismatch it
fails with the count-mismatch error naming the injected-parameter count
and the expected formal-parameter count. -/
theorem inject_count_validation (f : RawFactory) (itemName : String)
    (h : List HistoryRecord) (specs : List InjectSpec)
    (reqs : List InjectionRequest)
    (hd : f.injectDecl = .arr specs)
    (hp : parseFactoryInjectionArguments itemName (.arr specs) h =
      .ok reqs) :
    (∀ out, parseFactoryInject f itemName h = .ok out →
       out.length = f.params.length)
    ∧ (reqs.length ≠ f.params.length →
       parseFactoryInject f itemName h =
         .error (.countMismatch itemName reqs.length f.params.length
           (addToHistoryR [] itemName f))) := by
  have hun : parseFactoryInject f itemName h =
      (match validateFunctionArgumentCount f itemName reqs.length with
       | .error e => Except.error e
       | .ok _ => Except.ok reqs) := by
    simp only [parseFactoryInject, hd, hp]
  constructor
  · intro out hout
    rw [hun, validateFunctionArgumentCount] at hout
    by_cases hlen : reqs.length = f.params.length
    · simp only [hlen, ne_eq, not_true_eq_false, if_false] at hout
      cases hout
      exact hlen
    · simp only [ne_eq, hlen, not_false_eq_true, if_true] at hout
      cases hout
  · intro hne
    rw [hun, validateFunctionArgumentCount]
    simp [hne]

/-- C7 (witness): registering `c7f` fails with the count-mismatch error
naming 1 injected and 2 expected parameters. -/
theorem inject_count_validation_witness :
    parseFactoryInject c7f "t" [] =
      .error (.countMismatch "t" 1 2 (addToHistoryR [] "t" c7f)) :=
  (inject_count_validation c7f "t" [] [.str "a"] [{ name := "a" }] rfl
    rfl).2 (by decide)

/-! ### C8 -/

/-- C8: the registration-source stamped at register time is the explicit
(truthy) `options.registerSourceFile`, else the (truthy) container-level
label, else undefined; the registered entry carries that stamp; unless
tracing is skipped by the per-call option or the container flag, a
non-resolvable registration source is a hard error, while a missing
origin file only adds the non-fatal warning and registration succeeds. -/
theorem register_source_resolution (s : InjectorState) (itemName : String)
    (f : RawFactory) (o : RegisterOptions) :
    ((stampFactory s f o).registerSourceFile =
      (if optTruthy o.registerSourceFile then o.registerSourceFile
       else if optTruthy s.meta.registerSourceFile then
         s.meta.registerSourceFile
       else none))
    ∧ (∀ s2 w df, registerFactory s itemName f o = .ok (s2, w) →
        s2.registered itemName = some df →
        df.registerSourceFile = (stampFactory s f o).registerSourceFile)
    ∧ (o.skipTraceErrors = false → s.meta.skipTraceErrors = false →
       optTruthy (stampFactory s f o).registerSourceFile = false →
       registerFactory s itemName f o =
         .error (.missingRegisterSource itemName
           (addToHistoryR [] itemName (stampFactory s f o))))
    ∧ (∀ reqs, o.skipTraceErrors = false →
       s.meta.skipTraceErrors = false →
       optTruthy (stampFactory s f o).registerSourceFile = true →
       optTruthy (stampFactory s f o).filename = false →
       parseFactoryInject (stampFactory s f o) itemName
         (addToHistoryR [] itemName (stampFactory s f o)) = .ok reqs →
       registerFactory s itemName f o =
         .ok ({ s with
                registered :=
                  setMap s.registered itemName
                    (decorateFactory (stampFactory s f o) reqs) },
              [.missingFilename itemName])) := by
  refine ⟨rfl, ?_, ?_, ?_⟩
  · intro s2 w df hok hdf
    simp only [registerFactory] at hok
    split at hok
    · cases hok
    · split at hok
      · cases hok
      · cases hok
        simp only [setMap, if_pos rfl] at hdf
        cases hdf
        rfl
  · intro h1 h2 h3
    simp only [registerFactory, h1, h2, h3, Bool.not_false, Bool.and_self,
      Bool.not_true, Bool.and_true, if_true]
  · intro reqs h1 h2 h3 h4 h5
    simp only [registerFactory, h1, h2, h3, h5, Bool.not_false,
      Bool.and_self, Bool.not_true, Bool.and_false, Bool.false_eq_true,
      if_false, validateFactoryWarnings, h4, if_true]

/-- C8 (witness): with an explicit register source and no origin file,
registration succeeds and only emits the missing-filename warning. -/
theorem register_source_resolution_witness :
    registerFactory emptyState "w" c8f c8o =
      .ok ({ emptyState with
             registered := setMap emptyState.registered "w"
               (decorateFactory (stampFactory emptyState c8f c8o) []) },
           [.missingFilename "w"]) :=
  (register_source_resolution emptyState "w" c8f c8o).2.2.2 [] rfl rfl rfl
    rfl rfl

/-! ### C9 -/

/-- C9 (counterexample): the register-then-resolve round trip is NOT the
identity on non-function values for every reachable state: after
registering `1` under `n` and resolving it (which caches `1` as a
singleton), re-registering the value `2` under `n` and resolving again
still returns the stale cached `1`, because `register` never clears the
singleton cache and the truthy cache entry short-circuits the fresh
registration. -/
theorem value_round_trip_stale_cache_counterexample :
    (do
      let r1 ← diRegister emptyState "n" (.value (.vnum 1)) c9opts
      let p1 ← diResolveValue 9 r1.1 "n" none
      let r2 ← diRegister p1.2 "n" (.value (.vnum 2)) c9opts
      let p2 ← diResolveValue 9 r2.1 "n" none
      Except.ok (p1.1, p2.1)) = .ok (Value.vnum 1, Value.vnum 1) :=
  rfl

/-- C9 (amended): for a name with no TRUTHY stale singleton-cache entry,
registering a non-function value wraps it in a synthetic always-singleton
zero-dependency factory (preserving a truthy origin-file tag the value
carries, per `wrapValue`), and a subsequent resolve returns exactly that
value. -/
theorem value_round_trip_amended (fuel : Nat) (s : InjectorState)
    (n : String) (v : Value) (o : RegisterOptions) (s2 : InjectorState)
    (w : List RegisterWarning)
    (hn : ¬(n = ""))
    (hsing : optTruthy (s.singletons n) = false)
    (hok : diRegister s n (.value v) o = .ok (s2, w)) :
    s2.registered n =
      some (decorateFactory (stampFactory s (wrapValue v) o) [])
    ∧ (stampFactory s (wrapValue v) o).singleton = true
    ∧ (decorateFactory (stampFactory s (wrapValue v) o) []).inject = []
    ∧ (diResolveValue (fuel + 2) s2 n none).map Prod.fst = .ok v := by
  have hparse : parseFactoryInject (stampFactory s (wrapValue v) o) n
      (addToHistoryR [] n (stampFactory s (wrapValue v) o)) = .ok [] := rfl
  have hsingleton : (stampFactory s (wrapValue v) o).singleton = true := by
    cases hb : o.forceSingleton <;> simp [stampFactory, wrapValue, hb]
  rw [diRegister, if_neg hn] at hok
  simp only [toFactory, registerFactory, hparse] at hok
  split at hok
  · cases hok
  · cases hok
    refine ⟨by simp [setMap], hsingleton, rfl, ?_⟩
    have hreg2 : setMap s.registered n
        (decorateFactory (stampFactory s (wrapValue v) o) []) n =
        some (decorateFactory (stampFactory s (wrapValue v) o) []) := by
      simp [setMap]
    rw [diResolveValue, if_neg hn, resolveFactory]
    simp only [hsing, Bool.false_eq_true, if_false, hreg2]
    rw [dependencyInjectFactory]
    simp only [decorateFactory, DFactory.inject, List.isEmpty_nil,
      if_true, DFactory.singleton, hsingleton, runFactory,
      DFactory.placeholderArgs, DFactory.body]
    simp only [resolveSingletonAsFactory, DFactory.placeholderArgs,
      List.mapM, List.mapM.loop, setMap, if_pos rfl, DFactory.body,
      applyBody, stampFactory, wrapValue, Option.getD_some, Except.map]
    simp [pure, Except.pure]

/-- C9 (witness): registering the plain string value `hello` under `val`
in the empty state and resolving it returns exactly that string. -/
theorem value_round_trip_amended_witness :
    (diResolveValue 9 c9s2 "val" none).map Prod.fst =
      .ok (Value.vstr "hello") :=
  (value_round_trip_amended 7 emptyState "val" (.vstr "hello") c9opts
    c9s2 [.missingFilename "val"] (by decide) rfl rfl).2.2.2

/-! ### C10 -/

/-- C10: a placeholder value supplied as the literal `undefined` is
indistinguishable from an absent key: a required placeholder whose name
is present in the merged bag but bound to `undefined` fails with the
missing-placeholder binding error, an optional one receives `undefined`
instead of the supplied entry, and any argument object with the key
absent produces the identical invocation result. -/
theorem undefined_placeholder_binding (f : DFactory)
    (args : Option ResolveArgs) (itemName : String)
    (h : List HistoryRecord) (pa : InjectionRequest)
    (hp : f.placeholderArgs = some [pa])
    (hbag : usableArgs args itemName pa.name = some Value.undef) :
    (pa.isOptional = false →
      runFactory f args itemName h =
        .error (.missingPlaceholder itemName pa.name h))
    ∧ (pa.isOptional = true →
      runFactory f args itemName h = .ok (applyBody f.body [Value.undef]))
    ∧ (∀ args2, usableArgs args2 itemName pa.name = none →
        runFactory f args2 itemName h = runFactory f args itemName h) := by
  have hrun : ∀ args3 : Option ResolveArgs,
      usableArgs args3 itemName pa.name = some Value.undef ∨
        usableArgs args3 itemName pa.name = none →
      runFactory f args3 itemName h =
        (if pa.isOptional then .ok (applyBody f.body [Value.undef])
         else .error (.missingPlaceholder itemName pa.name h)) := by
    intro args3 hb
    rw [runFactory, hp]
    have hu : isUndef (getJs (usableArgs args3 itemName) pa.name) = true := by
      cases hb with
      | inl hbs => simp [getJs, hbs, isUndef]
      | inr hbn => simp [getJs, hbn, isUndef]
    simp only [List.mapM, List.mapM.loop, bindPlaceholderArg, hu,
      Bool.true_eq_false, if_false]
    by_cases hopt : pa.isOptional
    · simp [hopt]
    · simp [hopt]
  refine ⟨?_, ?_, ?_⟩
  · intro hreq
    rw [hrun args (Or.inl hbag), hreq]
    rfl
  · intro hopt
    rw [hrun args (Or.inl hbag), hopt]
    rfl
  · intro args2 habs
    rw [hrun args (Or.inl hbag), hrun args2 (Or.inr habs)]

/-- C10 (witness): the per-item `undefined` entry shadows the defined
shared value, and the required placeholder fails as if absent. -/
theorem undefined_placeholder_binding_witness :
    runFactory c10f c10args "it" [] =
      .error (.missingPlaceholder "it" "z" []) :=
  (undefined_placeholder_binding c10f c10args "it" []
    { name := "z", isPlaceholder := true } rfl rfl).1 rfl

end FactoryDI
